import Mathlib

/-!
Verification development for the `post-tags` article-tagging pipeline
(`src/post-tags/process-post.py`).  The Python code is shallowly embedded:
pure parsing helpers become Lean functions on `String`/`List Char`, the
mutable `TagProcessor` state becomes an explicit `ProcState` record threaded
through the processing functions, the external completion service becomes an
oracle argument, and the three on-disk JSON documents become an explicit
`Docs` record.  Machine integers do not occur (all counts are unbounded
Python ints, modelled as `Nat`).
-/

namespace PostTags

/-! ## Character-level string helpers

Core `String` operations such as `String.splitOn` and `String.trim` are
implemented with position arithmetic that the kernel cannot reduce, so the
Python string primitives are modelled structurally over `List Char`. -/

/-- Python `str.split(sep)` for a one-character separator: keeps empty
segments, and `''.split(sep) = ['']`. -/
def splitOnChar (sep : Char) : List Char → List (List Char)
  | [] => [[]]
  | c :: cs =>
    let r := splitOnChar sep cs
    if c = sep then [] :: r
    else
      match r with
      | h :: t => (c :: h) :: t
      | [] => [[c]]

/-- Python `str.strip()` with no argument, dropping ASCII whitespace from
both ends (the responses and contents in scope contain no exotic Unicode
whitespace). -/
def trimChars (l : List Char) : List Char :=
  ((l.dropWhile Char.isWhitespace).reverse.dropWhile Char.isWhitespace).reverse

/-- Wrapper for `str.strip()` on a `String`. -/
def pyStrip (s : String) : String := String.mk (trimChars s.toList)

/-! ## Response parser (`TagProcessor.generate_tags`, lines 209-243)

The raw response text is split on ASCII commas; each non-empty trimmed
segment either contributes `#...#`-enclosed spans (via
`re.findall(r'#([^#]+)#', part)`) followed by the remainder with all
`#...#` spans removed (via `re.sub(r'#[^#]*#', '', part)`, trimmed, kept if
non-empty), or, when no `#` occurs, the whole trimmed segment.  Candidates
are then cleaned and the list truncated to 5. -/

/-- Scanner for `re.findall(r'#([^#]+)#', s)`: leftmost non-overlapping
matches of a `#`, a non-empty run of non-`#` characters, and a closing
`#`; scanning resumes after each match, or one character further on a
failed start.  The fuel argument (always called with the list length, which
bounds the number of recursive calls, each of which strictly shortens the
list) makes the recursion structural. -/
def findallHashGo : Nat → List Char → List String
  | 0, _ => []
  | _ + 1, [] => []
  | fuel + 1, c :: cs =>
    if c = '#' then
      match cs.dropWhile (fun d => d ≠ '#') with
      | _ :: rest2 =>
        if (cs.takeWhile (fun d => d ≠ '#')).isEmpty then findallHashGo fuel cs
        else String.mk (cs.takeWhile (fun d => d ≠ '#')) :: findallHashGo fuel rest2
      | [] => findallHashGo fuel cs
    else findallHashGo fuel cs

def findallHash (l : List Char) : List String := findallHashGo l.length l

/-- Scanner for `re.sub(r'#[^#]*#', '', s)`: delete leftmost
non-overlapping spans of a `#`, a possibly-empty run of non-`#` characters,
and a closing `#`; an unclosed `#` is kept literally.  Fueled like
`findallHashGo`. -/
def subHashGo : Nat → List Char → List Char
  | 0, l => l
  | _ + 1, [] => []
  | fuel + 1, c :: cs =>
    if c = '#' then
      match cs.dropWhile (fun d => d ≠ '#') with
      | _ :: rest2 => subHashGo fuel rest2
      | [] => c :: subHashGo fuel cs
    else c :: subHashGo fuel cs

def subHash (l : List Char) : List Char := subHashGo l.length l

/-- Candidates contributed by one comma-separated segment (the loop body at
lines 212-226): strip; drop empty; on a `#`, hashtag spans first, then the
non-empty stripped remainder; otherwise the stripped segment itself. -/
def parseSegment (seg : List Char) : List String :=
  let p := trimChars seg
  if p = [] then []
  else if p.contains '#' then
    let hs := findallHash p
    let non := trimChars (subHash p)
    hs ++ (if non = [] then [] else [String.mk non])
  else [String.mk p]

/-- Model of `raw_tags`: all candidates over the comma-split of the response text. -/
def rawTags (text : String) : List String :=
  (splitOnChar ',' text.toList).flatMap parseSegment

/-- The punctuation characters of `tag.strip('，。！？；：""''（）【】《》')`
at line 234.  Python's implicit literal concatenation makes the argument
`，。！？；：\x22（）【】《》`: six full-width marks, the ASCII double
quote, and six full-width brackets — no ASCII period, comma, apostrophe
or parenthesis. -/
def punctChars : List Char :=
  ['，', '。', '！', '？', '；', '：', '\x22', '（', '）', '【', '】', '《', '》']

/-- Python `str.strip(chars)`: remove leading and trailing characters that
belong to `punctChars`. -/
def stripPunct (l : List Char) : List Char :=
  ((l.dropWhile (fun c => c ∈ punctChars)).reverse.dropWhile
    (fun c => c ∈ punctChars)).reverse

/-- The cleaning loop at lines 229-236: strip whitespace from each
candidate, require length at least 2, strip surrounding punctuation,
require length at least 2 again, and keep the stripped value. -/
def cleanTags (raw : List String) : List String :=
  raw.filterMap fun t =>
    let t1 := trimChars t.toList
    if t1 ≠ [] ∧ 2 ≤ t1.length then
      let t2 := stripPunct t1
      if t2 ≠ [] ∧ 2 ≤ t2.length then some (String.mk t2) else none
    else none

/-- The full pure parse of a (already whitespace-stripped) response text:
clean candidates, truncated to the first five (`tags[:5]`, line 241). -/
def parseTags (text : String) : List String :=
  (cleanTags (rawTags text)).take 5

/-! ## Tag generator (`TagProcessor.generate_tags`, lines 180-256)

The call to the completion service is modelled by a `ServiceOutcome`
argument: either the response text (`response.choices[0].message.content`)
or one of the caught exception classes (`openai.APIError`,
`openai.RateLimitError`, `openai.AuthenticationError`, any other
`Exception`).  Every error branch returns `[]`; the Lean model is a total
function, mirroring that the Python function never raises to its caller. -/

inductive ServiceOutcome where
  | ok (text : String)
  | apiError
  | rateLimitError
  | authenticationError
  | unknownError
deriving DecidableEq, Repr

/-- Predicate `svc.isError = true` exactly on the four caught exception classes. -/
def ServiceOutcome.isError : ServiceOutcome → Bool
  | .ok _ => false
  | _ => true

/-- Model of `generate_tags`: empty content short-circuits to `[]` without consulting
the service; a service error yields `[]`; a response text is stripped
(line 206) and parsed. -/
def generate_tags (content : String) (svc : ServiceOutcome) : List String :=
  if content = "" then []
  else
    match svc with
    | .ok text => parseTags (pyStrip text)
    | _ => []

/-! ## Aggregation Store state (`TagProcessor.__init__`, lines 38-48)

`tag_pool` (a Python `set`) is modelled as a duplicate-free list,
`tag_counter` (a `collections.Counter`) as an association list in
key-insertion order, and the two processed-identifier sets as lists. -/

/-- A `collections.Counter` over tag strings: association list whose key
order is first-insertion order, as `Counter` iteration order is. -/
abbrev TagCounter := List (String × Nat)

def counterKeys (c : TagCounter) : List String := c.map Prod.fst

/-- Model of `Counter.update([t])` for one element: increment an existing key in
place, or append a new key with count 1. -/
def counterIncr (c : TagCounter) (t : String) : TagCounter :=
  if c.any (fun p => p.1 = t) then
    c.map (fun p => if p.1 = t then (p.1, p.2 + 1) else p)
  else c ++ [(t, 1)]

/-- Model of `Counter.update(tags)`: increment once per list element (duplicates in
one call increment multiple times). -/
def counterUpdate (c : TagCounter) (ts : List String) : TagCounter :=
  ts.foldl counterIncr c

/-- Model of `sum(self.tag_counter.values())`. -/
def counterTotal (c : TagCounter) : Nat := (c.map Prod.snd).sum

/-- Python `set.add`-style insertion for the tag pool. -/
def poolInsert (pool : List String) (t : String) : List String :=
  if t ∈ pool then pool else pool ++ [t]

/-- Model of `self.tag_pool.update(tags)`. -/
def poolUpdate (pool : List String) (ts : List String) : List String :=
  ts.foldl poolInsert pool

/-- The mutable state of a `TagProcessor`. -/
structure ProcState where
  tag_pool : List String
  tag_counter : TagCounter
  processed_files : List String
  processed_articles : List String
deriving DecidableEq, Repr

/-- A freshly constructed processor (`__init__`): everything empty. -/
def initState : ProcState := ⟨[], [], [], []⟩

/-- The tag-pool / counter merge performed under `self.tag_lock`
(lines 282-287 and 369-374): update the distinct-tag set, then increment
the counter for every tag of the input list. -/
def mergeTags (st : ProcState) (ts : List String) : ProcState :=
  { st with
    tag_pool := poolUpdate st.tag_pool ts
    tag_counter := counterUpdate st.tag_counter ts }

/-! ## Persistence documents (`load_state`, `save_state`,
`save_tags_incremental`, `save_tags`; lines 132-178 and 435-477) -/

/-- The `tags_stats.json` document. -/
structure Stats where
  total_tags : Nat
  total_occurrences : Nat
  tag_counts : TagCounter
  top_tags : TagCounter
deriving DecidableEq, Repr

/-- The three sibling on-disk JSON documents; `none` means the file does
not exist. -/
structure Docs where
  tagsDoc : Option (List String)
  statsDoc : Option Stats
  progressDoc : Option (List String × List String)
deriving DecidableEq, Repr

def emptyDocs : Docs := ⟨none, none, none⟩

/-- Python's string comparison: lexicographic on code points. -/
def charListLt : List Char → List Char → Bool
  | [], [] => false
  | [], _ :: _ => true
  | _ :: _, [] => false
  | c :: cs, d :: ds =>
    if c.toNat < d.toNat then true
    else if d.toNat < c.toNat then false
    else charListLt cs ds

def strLt (s t : String) : Bool := charListLt s.toList t.toList

/-- Stable ascending insertion for `sorted(list(tag_pool))`. -/
def insertAsc (s : String) : List String → List String
  | [] => [s]
  | t :: ts => if strLt s t then s :: t :: ts else t :: insertAsc s ts

def sortStrings (l : List String) : List String := l.foldr insertAsc []

/-- Stable descending-by-count insertion, matching the stable descending
sort of `Counter.most_common()`. -/
def insertDesc (p : String × Nat) : TagCounter → TagCounter
  | [] => [p]
  | q :: qs => if q.2 < p.2 then p :: q :: qs else q :: insertDesc p qs

/-- Model of `Counter.most_common()`: items sorted by descending count, ties kept in
insertion order (Python's sort is stable). -/
def mostCommon (c : TagCounter) : TagCounter :=
  c.foldl (fun acc p => insertDesc p acc) []

/-- The `stats_data` dictionary built at lines 444-450 / 466-472. -/
def mkStats (st : ProcState) : Stats :=
  { total_tags := st.tag_pool.length
    total_occurrences := counterTotal st.tag_counter
    tag_counts := mostCommon st.tag_counter
    top_tags := (mostCommon st.tag_counter).take 10 }

/-- Model of `save_tags` / `save_tags_incremental`: write the lexicographically
sorted tag list and the stats document. -/
def save_tags (st : ProcState) (docs : Docs) : Docs :=
  { docs with
    tagsDoc := some (sortStrings st.tag_pool)
    statsDoc := some (mkStats st) }

/-- Model of `save_state`: write the progress document (processed file identifiers,
processed article identifiers). -/
def save_state (st : ProcState) (docs : Docs) : Docs :=
  { docs with progressDoc := some (st.processed_files, st.processed_articles) }

/-- Model of `load_state` on a fresh processor: each of the three documents that
exists seeds the corresponding part of the state independently; a missing
document leaves that part empty.  `set(...)` is modelled by `List.dedup`. -/
def load_state (docs : Docs) : ProcState :=
  { tag_pool :=
      match docs.tagsDoc with
      | some l => l.dedup
      | none => []
    tag_counter :=
      match docs.statsDoc with
      | some s => s.tag_counts
      | none => []
    processed_files :=
      match docs.progressDoc with
      | some p => p.1.dedup
      | none => []
    processed_articles :=
      match docs.progressDoc with
      | some p => p.2.dedup
      | none => [] }

/-- The Aggregation Store invariant claimed by the spec: the distinct-tag
set equals the key set of the count mapping, and every tracked count is at
least 1. -/
def storeInv (st : ProcState) : Prop :=
  (∀ t ∈ st.tag_pool, t ∈ counterKeys st.tag_counter) ∧
  (∀ t ∈ counterKeys st.tag_counter, t ∈ st.tag_pool) ∧
  (∀ p ∈ st.tag_counter, 1 ≤ p.2)

instance (st : ProcState) : Decidable (storeInv st) := by
  unfold storeInv; infer_instance

/-! ## Content extraction (`read_article`, `read_json_articles`;
lines 50-130)

A parsed JSON value.  Leaves are strings; `pyStr` models Python's `str()`
coercion of an extracted field value: a string maps to itself, and the
(never-empty) repr of a composite value is modelled by a marker — no
claimed property exercises a composite content field. -/

inductive JValue where
  | str : String → JValue
  | obj : List (String × JValue) → JValue
  | arr : List JValue → JValue

def pyStr : JValue → String
  | .str s => s
  | .obj _ => "dict"
  | .arr _ => "list"

/-- Python `field in item` / `item[field]` (parsed-JSON object keys are
unique, so first match is the match). -/
def jLookup (fs : List (String × JValue)) (k : String) : Option JValue :=
  (fs.find? (fun p => p.1 = k)).map Prod.snd

/-- The ordered fallback list of conventional field names (lines 69, 110). -/
def fallbackFields : List String := ["content", "text", "body", "description"]

/-- The `for field in [...]: if field in item: ... break` loop: first
present field wins, its value is `str()`-converted and stripped. -/
def resolveFallback (fs : List (String × JValue)) : Option String :=
  (fallbackFields.findSome? (fun f => jLookup fs f)).map (fun v => pyStrip (pyStr v))

/-- Content-field resolution (lines 65-75 / 106-116): the supplied
`content_field` wins when present; otherwise the fallback list is tried. -/
def resolveContent (contentField : Option String) (fs : List (String × JValue)) :
    Option String :=
  match contentField with
  | some cf =>
    match jLookup fs cf with
    | some v => some (pyStrip (pyStr v))
    | none => resolveFallback fs
  | none => resolveFallback fs

/-- One input unit extracted from a JSON array (the `articles` dicts built
at lines 119-123).  The unread `metadata` mapping is not modelled: it is
threaded through unchanged and no claimed property reads it. -/
structure Article where
  index : Nat
  content : String
deriving DecidableEq, Repr

/-- An input file: its path, its raw text, and the result of `json.load`
on it (`none` for unreadable or malformed JSON). -/
structure SrcFile where
  path : String
  rawText : String
  parsed : Option JValue

/-- Test `Path(file_path).suffix.lower() == '.json'`. -/
def hasJsonExt (p : String) : Bool :=
  (".json".toList.reverse).isPrefixOf ((p.toList.map Char.toLower).reverse)

/-- Model of `read_json_articles` (lines 90-130): requires a top-level array; each
array element that is a mapping with a resolvable, non-empty content field
becomes one article carrying its array index; everything else (including a
top-level object, and any parse failure) yields zero articles. -/
def read_json_articles (contentField : Option String) (parsed : Option JValue) :
    List Article :=
  match parsed with
  | some (.arr items) =>
    items.enum.filterMap fun p =>
      match p.2 with
      | .obj fs =>
        match resolveContent contentField fs with
        | some c => if c = "" then none else some ⟨p.1, c⟩
        | none => none
      | _ => none
  | _ => []

/-- Model of `read_article` (lines 50-88): a `.json` path requires a top-level
object and resolves a content field (empty string on any failure); any
other path yields the stripped raw text. -/
def read_article (contentField : Option String) (f : SrcFile) : String :=
  if hasJsonExt f.path then
    match f.parsed with
    | some (.obj fs) => (resolveContent contentField fs).getD ""
    | _ => ""
  else pyStrip f.rawText

/-- Model of `os.path.basename`. -/
def basename (p : String) : String :=
  String.mk ((splitOnChar '/' p.toList).getLastD p.toList)

/-! ## Orchestration (`process_single_article`, `process_single_file`,
`process_files`, `main`; lines 258-433 and 510-711)

The external completion service is an oracle from the submitted article
content to a `ServiceOutcome`.  Each processing function returns its result
value, the updated processor state, the current on-disk documents, and the
list of document snapshots written while it ran (incremental saves). -/

inductive Status where
  | success
  | failed
  | skipped
deriving DecidableEq, Repr

/-- The per-article result dictionary. -/
structure AResult where
  article : String
  status : Status
  reason : String
  tags : List String
deriving DecidableEq, Repr

/-- The per-file result dictionary (`results` holds the per-article
results on the JSON branch; `tags` the generated tags on the text branch). -/
structure FResult where
  file : String
  status : Status
  reason : String
  results : List AResult
  tags : List String
deriving DecidableEq, Repr

def articleId (fileName : String) (a : Article) : String :=
  fileName ++ "#" ++ toString a.index

/-- Model of `process_single_article` (lines 258-306).  `incSave` models
`output_file and incremental_save`.  Program order: membership check on
`processed_articles` (no lock), empty-content check, `generate_tags`, then
under `tag_lock` the pool/counter merge and — when incremental saving —
`save_tags_incremental` followed by `save_state`, and finally (outside the
lock) the insertion of the article identifier into `processed_articles`. -/
def process_single_article (svc : String → ServiceOutcome) (incSave : Bool)
    (fileName : String) (a : Article) (st : ProcState) (docs : Docs) :
    AResult × ProcState × Docs × List Docs :=
  let aid := articleId fileName a
  if aid ∈ st.processed_articles then
    (⟨aid, .skipped, "already_processed", []⟩, st, docs, [])
  else if a.content = "" then
    (⟨aid, .failed, "empty_content", []⟩, st, docs, [])
  else
    let tags := generate_tags a.content (svc a.content)
    if tags = [] then
      (⟨aid, .failed, "no_tags_generated", []⟩, st, docs, [])
    else
      let st1 := mergeTags st tags
      let docs1 := if incSave then save_state st1 (save_tags st1 docs) else docs
      let st2 := { st1 with processed_articles := st1.processed_articles ++ [aid] }
      (⟨aid, .success, "", tags⟩, st2, docs1, if incSave then [docs1] else [])

/-- The sequential loop over a JSON file's articles (lines 330-333). -/
def processArticles (svc : String → ServiceOutcome) (incSave : Bool)
    (fileName : String) :
    List Article → ProcState → Docs → List AResult × ProcState × Docs × List Docs
  | [], st, docs => ([], st, docs, [])
  | a :: rest, st, docs =>
    let out := process_single_article svc incSave fileName a st docs
    let outs := processArticles svc incSave fileName rest out.2.1 out.2.2.1
    (out.1 :: outs.1, outs.2.1, outs.2.2.1, out.2.2.2 ++ outs.2.2.2)

/-- Model of `process_single_file` (lines 308-384).  A path already in
`processed_files` is skipped.  A `.json` path goes through
`read_json_articles` (top-level array required), processes each article,
and then marks the file path processed.  Any other path goes through
`read_article`: empty content or zero generated tags fail; on success the
pool/counter are merged — with no incremental save and without marking the
file path processed. -/
def process_single_file (svc : String → ServiceOutcome)
    (contentField : Option String) (incSave : Bool) (f : SrcFile)
    (st : ProcState) (docs : Docs) :
    FResult × ProcState × Docs × List Docs :=
  let fileName := basename f.path
  if f.path ∈ st.processed_files then
    (⟨fileName, .skipped, "already_processed", [], []⟩, st, docs, [])
  else if hasJsonExt f.path then
    let articles := read_json_articles contentField f.parsed
    if articles = [] then
      (⟨fileName, .failed, "no_valid_articles", [], []⟩, st, docs, [])
    else
      let outs := processArticles svc incSave fileName articles st docs
      let st2 := { outs.2.1 with
                   processed_files := outs.2.1.processed_files ++ [f.path] }
      (⟨fileName, .success, "", outs.1, []⟩, st2, outs.2.2.1, outs.2.2.2)
  else
    let content := read_article contentField f
    if content = "" then
      (⟨fileName, .failed, "empty_content", [], []⟩, st, docs, [])
    else
      let tags := generate_tags content (svc content)
      if tags = [] then
        (⟨fileName, .failed, "no_tags_generated", [], []⟩, st, docs, [])
      else
        (⟨fileName, .success, "", [], tags⟩, mergeTags st tags, docs, [])

/-- Model of `process_files` (lines 386-433), modelled with the files handled
sequentially in submission order (one worker). -/
def process_files (svc : String → ServiceOutcome) (contentField : Option String)
    (incSave : Bool) :
    List SrcFile → ProcState → Docs → List FResult × ProcState × Docs × List Docs
  | [], st, docs => ([], st, docs, [])
  | f :: rest, st, docs =>
    let out := process_single_file svc contentField incSave f st docs
    let outs := process_files svc contentField incSave rest out.2.1 out.2.2.1
    (out.1 :: outs.1, outs.2.1, outs.2.2.1, out.2.2.2 ++ outs.2.2.2)

/-- One full run of `main` (lines 587-701): construct a fresh processor,
`load_state` from the existing documents, process every discovered file,
then `save_tags` and `save_state`. -/
def runOnce (svc : String → ServiceOutcome) (contentField : Option String)
    (incSave : Bool) (files : List SrcFile) (docs : Docs) :
    List FResult × ProcState × Docs :=
  let st0 := load_state docs
  let out := process_files svc contentField incSave files st0 docs
  (out.1, out.2.1, save_state out.2.1 (save_tags out.2.1 out.2.2.1))

/-! ## Lock structure (`threading.Lock` usage)

The atomic operations each worker performs on the two shared structures,
with the locks held at each, read off `process_single_article` and
`process_single_file`: `tag_lock` guards the pool/counter merge and the
incremental save (the `with self.tag_lock` block, lines 282-294);
`file_lock` guards the `processed_files` membership check (lines 314-317)
and, in a separate acquisition, the `processed_files` insert
(lines 341-342); the `processed_articles` membership check (line 263) and
insert (line 297) hold no lock at all. -/

inductive LockId where
  | tagLock
  | fileLock
deriving DecidableEq, Repr, Fintype

structure AtomicStep where
  opName : String
  target : String
  locksHeld : List LockId
deriving DecidableEq, Repr

def articleCheckStep : AtomicStep :=
  ⟨"processed_articles membership check (line 263)", "processed_articles", []⟩

def serviceCallStep : AtomicStep :=
  ⟨"generate_tags service call (line 276)", "external", []⟩

def mergePoolStep : AtomicStep :=
  ⟨"tag_pool.update (line 284)", "tag_pool", [.tagLock]⟩

def mergeCounterStep : AtomicStep :=
  ⟨"tag_counter.update (line 285)", "tag_counter", [.tagLock]⟩

def incSaveStep : AtomicStep :=
  ⟨"incremental save of tags, stats, progress (lines 292-294)", "docs", [.tagLock]⟩

def articleInsertStep : AtomicStep :=
  ⟨"processed_articles.add (line 297)", "processed_articles", []⟩

/-- The operations of `process_single_article` in program order. -/
def articleSteps : List AtomicStep :=
  [articleCheckStep, serviceCallStep, mergePoolStep, mergeCounterStep,
   incSaveStep, articleInsertStep]

def fileCheckStep : AtomicStep :=
  ⟨"processed_files membership check (lines 314-317)", "processed_files", [.fileLock]⟩

def fileBodyStep : AtomicStep :=
  ⟨"article extraction and processing (lines 320-338)", "many", []⟩

def fileInsertStep : AtomicStep :=
  ⟨"processed_files.add (lines 341-342)", "processed_files", [.fileLock]⟩

/-- The file-level check-then-insert sequence of `process_single_file` in
program order. -/
def fileSteps : List AtomicStep := [fileCheckStep, fileBodyStep, fileInsertStep]

/-- A multi-step sequence executes under mutual exclusion exactly when one
common lock is held across every step of the sequence. -/
def underCommonLock (steps : List AtomicStep) : Prop :=
  ∃ l : LockId, ∀ s ∈ steps, l ∈ s.locksHeld

instance (steps : List AtomicStep) : Decidable (underCommonLock steps) := by
  unfold underCommonLock; infer_instance

/-- The check-membership-then-insert sequence on `processed_articles`, as a
sub-sequence of `articleSteps` (the service call and merge lie between the
two in program order). -/
def checkThenInsertSteps : List AtomicStep :=
  articleSteps.filter (fun s => s.target = "processed_articles")

/-! ## Concrete fixtures used by counterexamples and witnesses -/

/-- A deterministic service stub answering `"天气, 运动"` for every article
(the stubbed generation service of the spec's end-to-end property). -/
def svcWeather : String → ServiceOutcome := fun _ => ServiceOutcome.ok "天气, 运动"

/-- A one-article plain-text corpus file. -/
def txtFile : SrcFile := ⟨"post-tags/data/a.txt", "今天天气很好，适合出去运动。", none⟩

/-- A `.json` file whose top-level value is a single object with a
`content` field. -/
def objJsonFile : SrcFile :=
  ⟨"post-tags/data/b.json", "",
   some (JValue.obj [("content", JValue.str "今天天气很好")])⟩

/-- First run over the one-text-file corpus, starting from no documents. -/
def c1Run1 : List FResult × ProcState × Docs :=
  runOnce svcWeather none false [txtFile] emptyDocs

/-- Second run over the same corpus, resuming from the first run's saved
documents. -/
def c1Run2 : List FResult × ProcState × Docs :=
  runOnce svcWeather none false [txtFile] c1Run1.2.2

/-- A store state holding one tag with count 1 (used by witnesses). -/
def oneTagState : ProcState := ⟨["天气"], [("天气", 1)], [], []⟩

/-- A sample article with non-empty content (used by witnesses). -/
def sampleArticle : Article := ⟨0, "今天天气很好"⟩

/-! ## Helper lemmas -/

theorem any_key_iff (c : TagCounter) (u : String) :
    c.any (fun p => p.1 = u) = true ↔ u ∈ counterKeys c := by
  simp [counterKeys, List.any_eq_true, List.mem_map]

theorem counterKeys_map_incr (c : TagCounter) (u : String) :
    counterKeys (c.map (fun p => if p.1 = u then (p.1, p.2 + 1) else p))
      = counterKeys c := by
  unfold counterKeys
  rw [List.map_map]
  exact List.map_congr_left (fun p _ => by by_cases h : p.1 = u <;> simp [h])

theorem mem_counterKeys_incr (c : TagCounter) (u t : String) :
    t ∈ counterKeys (counterIncr c u) ↔ t ∈ counterKeys c ∨ t = u := by
  unfold counterIncr
  by_cases h : c.any (fun p => p.1 = u)
  · rw [if_pos h, counterKeys_map_incr]
    have hu : u ∈ counterKeys c := (any_key_iff c u).mp h
    constructor
    · exact Or.inl
    · rintro (ht | rfl)
      · exact ht
      · exact hu
  · rw [if_neg h]
    simp [counterKeys]

theorem counterIncr_pos (c : TagCounter) (u : String)
    (h : ∀ p ∈ c, 1 ≤ p.2) : ∀ p ∈ counterIncr c u, 1 ≤ p.2 := by
  unfold counterIncr
  split
  · intro p hp
    simp only [List.mem_map] at hp
    obtain ⟨q, hq, rfl⟩ := hp
    by_cases h2 : q.1 = u
    · simp [h2]
    · simpa [h2] using h q hq
  · intro p hp
    rcases List.mem_append.mp hp with h1 | h1
    · exact h p h1
    · simp only [List.mem_singleton] at h1
      subst h1
      exact Nat.le_refl 1

theorem mem_poolInsert (pool : List String) (u t : String) :
    t ∈ poolInsert pool u ↔ t ∈ pool ∨ t = u := by
  unfold poolInsert
  split
  · rename_i h
    constructor
    · exact Or.inl
    · rintro (ht | rfl)
      · exact ht
      · exact h
  · simp

theorem mem_poolUpdate (pool : List String) (ts : List String) (t : String) :
    t ∈ poolUpdate pool ts ↔ t ∈ pool ∨ t ∈ ts := by
  induction ts generalizing pool with
  | nil => simp [poolUpdate]
  | cons a ts ih =>
    show t ∈ poolUpdate (poolInsert pool a) ts ↔ _
    rw [ih, mem_poolInsert]
    simp only [List.mem_cons]
    tauto

theorem mem_counterKeys_update (c : TagCounter) (ts : List String) (t : String) :
    t ∈ counterKeys (counterUpdate c ts) ↔ t ∈ counterKeys c ∨ t ∈ ts := by
  induction ts generalizing c with
  | nil => simp [counterUpdate]
  | cons a ts ih =>
    show t ∈ counterKeys (counterUpdate (counterIncr c a) ts) ↔ _
    rw [ih, mem_counterKeys_incr]
    simp only [List.mem_cons]
    tauto

theorem counterUpdate_pos (c : TagCounter) (ts : List String)
    (h : ∀ p ∈ c, 1 ≤ p.2) : ∀ p ∈ counterUpdate c ts, 1 ≤ p.2 := by
  induction ts generalizing c with
  | nil => exact h
  | cons a ts ih => exact ih (counterIncr c a) (counterIncr_pos c a h)

/-- Merging any tag list into a state satisfying the Aggregation Store
invariant preserves the invariant. -/
theorem storeInv_merge (st : ProcState) (ts : List String) (h : storeInv st) :
    storeInv (mergeTags st ts) := by
  obtain ⟨h1, h2, h3⟩ := h
  refine ⟨?_, ?_, ?_⟩
  · intro t ht
    rcases (mem_poolUpdate _ _ _).mp ht with h4 | h4
    · exact (mem_counterKeys_update _ _ _).mpr (Or.inl (h1 t h4))
    · exact (mem_counterKeys_update _ _ _).mpr (Or.inr h4)
  · intro t ht
    rcases (mem_counterKeys_update _ _ _).mp ht with h4 | h4
    · exact (mem_poolUpdate _ _ _).mpr (Or.inl (h2 t h4))
    · exact (mem_poolUpdate _ _ _).mpr (Or.inr h4)
  · exact counterUpdate_pos _ _ h3

theorem mem_insertDesc (p q : String × Nat) (c : TagCounter) :
    q ∈ insertDesc p c ↔ q = p ∨ q ∈ c := by
  induction c with
  | nil => simp [insertDesc]
  | cons r rs ih =>
    unfold insertDesc
    split
    · simp only [List.mem_cons]
    · simp only [List.mem_cons, ih]
      tauto

theorem mem_mostCommon_aux (c acc : TagCounter) (q : String × Nat) :
    q ∈ c.foldl (fun acc p => insertDesc p acc) acc ↔ q ∈ acc ∨ q ∈ c := by
  induction c generalizing acc with
  | nil => simp
  | cons p ps ih =>
    simp only [List.foldl_cons, ih, mem_insertDesc, List.mem_cons]
    tauto

theorem mem_mostCommon (c : TagCounter) (q : String × Nat) :
    q ∈ mostCommon c ↔ q ∈ c := by
  unfold mostCommon
  rw [mem_mostCommon_aux]
  simp

theorem mem_counterKeys_mostCommon (c : TagCounter) (t : String) :
    t ∈ counterKeys (mostCommon c) ↔ t ∈ counterKeys c := by
  simp [counterKeys, List.mem_map, mem_mostCommon]

/-! ## Claim theorems -/

/-- Claim C4 (counterexample): the claim asserts that parsing the response
text "生活方式#标签#, AI" yields exactly ["生活方式", "标签", "AI"], but
the code extends `raw_tags` with the `#`-enclosed spans before appending
the remainder, so "标签" comes first. -/
theorem C4_counterexample :
    parseTags "生活方式#标签#, AI" ≠ ["生活方式", "标签", "AI"] := by decide

/-- Claim C4 (amended): for a comma-separated segment containing
`#`-delimited spans both the enclosed spans and the non-empty remainder are
kept, but with the `#`-enclosed spans first and the remainder after them;
parsing "生活方式#标签#, AI" yields exactly ["标签", "生活方式", "AI"]. -/
theorem C4_hashtag_segment_order :
    parseTags "生活方式#标签#, AI" = ["标签", "生活方式", "AI"] := by decide

/-- Claim C7 (counterexample): the claim asserts the surrounding-punctuation
strip set includes half-width periods, so a candidate ending in a
half-width period would have it removed; in the code the strip set is
`，。！？；：\x22（）【】《》` (the two adjacent single-quote characters in
the Python literal terminate and reopen the string, so neither a half-width
apostrophe nor a half-width period is in the set), and "word." is kept
with its period. -/
theorem C7_counterexample :
    parseTags "word." ≠ ["word"] ∧ parseTags "word." = ["word."] := by decide

/-- Claim C7 (amended): every kept candidate is whitespace-trimmed,
stripped of surrounding punctuation drawn from the fixed full-width set
plus the half-width double quote (`，。！？；：\x22（）【】《》` — no
half-width period, comma, single quote or parenthesis), and kept exactly
when the remaining length is at least 2; single-character candidates are
dropped. -/
theorem C7_candidate_cleaning (raw : List String) (t : String) :
    (t ∈ cleanTags raw → 2 ≤ t.length) ∧
    cleanTags ["，美食。"] = ["美食"] ∧
    cleanTags ["\x22洞见\x22"] = ["洞见"] ∧
    cleanTags ["word."] = ["word."] ∧
    cleanTags ["(word)"] = ["(word)"] ∧
    cleanTags ["a", "bb", "c"] = ["bb"] := by
  refine ⟨?_, by decide, by decide, by decide, by decide, by decide⟩
  intro h
  simp only [cleanTags, List.mem_filterMap] at h
  obtain ⟨a, _, ha⟩ := h
  by_cases h1 : trimChars a.toList ≠ [] ∧ 2 ≤ (trimChars a.toList).length
  · rw [if_pos h1] at ha
    by_cases h2 : stripPunct (trimChars a.toList) ≠ [] ∧
        2 ≤ (stripPunct (trimChars a.toList)).length
    · rw [if_pos h2] at ha
      obtain rfl := Option.some_injective _ ha
      simpa [String.length] using h2.2
    · rw [if_neg h2] at ha
      exact absurd ha (by simp)
  · rw [if_neg h1] at ha
    exact absurd ha (by simp)

/-- Claim C7 witness: the length bound applied at a concrete input. -/
theorem C7_witness : "美食" ∈ cleanTags ["，美食。"] ∧ 2 ≤ "美食".length :=
  ⟨by decide, (C7_candidate_cleaning ["，美食。"] "美食").1 (by decide)⟩

/-- Claim C8: the generator returns `[]` on empty input independently of
the service (no service call), returns `[]` whenever the service raises any
of the four caught error classes, and — being a total function — never
raises to its caller. -/
theorem C8_generator_total (content : String) (svc svc2 : ServiceOutcome) :
    generate_tags "" svc = [] ∧
    generate_tags "" svc = generate_tags "" svc2 ∧
    (svc.isError = true → generate_tags content svc = []) := by
  refine ⟨rfl, rfl, fun h => ?_⟩
  cases svc with
  | ok t => simp [ServiceOutcome.isError] at h
  | apiError => simp [generate_tags]
  | rateLimitError => simp [generate_tags]
  | authenticationError => simp [generate_tags]
  | unknownError => simp [generate_tags]

/-- Claim C8 witness: a rate-limited call on non-empty content returns no
tags. -/
theorem C8_witness :
    generate_tags "今天天气很好" ServiceOutcome.rateLimitError = [] :=
  (C8_generator_total "今天天气很好" ServiceOutcome.rateLimitError
    ServiceOutcome.apiError).2.2 (by decide)

/-- Claim C9: the parsed tag list is exactly the first five cleaned
candidates in parse order (so it has at most 5 entries), duplicates are not
deduplicated, and a response with seven valid comma-separated candidates
produces exactly the first five. -/
theorem C9_output_bound (resp : String) :
    parseTags resp = (cleanTags (rawTags resp)).take 5 ∧
    (parseTags resp).length ≤ 5 ∧
    parseTags "aa, aa, aa" = ["aa", "aa", "aa"] ∧
    parseTags "t1a, t2b, t3c, t4d, t5e, t6f, t7g"
      = ["t1a", "t2b", "t3c", "t4d", "t5e"] := by
  refine ⟨rfl, ?_, by decide, by decide⟩
  simpa [parseTags] using List.length_take_le 5 (cleanTags (rawTags resp))

/-- Claim C2 (counterexample): an article whose extracted content is empty
completes with a permanent failure, yet its identifier is not added to
`processed_articles` — the claimed "if and only if completion (success or
permanent failure)" fails in the failure direction. -/
theorem C2_counterexample :
    (process_single_article svcWeather false "f.json" ⟨0, ""⟩ initState
      emptyDocs).1.status = Status.failed ∧
    (process_single_article svcWeather false "f.json" ⟨0, ""⟩ initState
      emptyDocs).1.reason = "empty_content" ∧
    (process_single_article svcWeather false "f.json" ⟨0, ""⟩ initState
      emptyDocs).2.1.processed_articles = [] := by decide

/-- Claim C2 (amended): a unit identifier is added to `processed_articles`
if and only if tag generation for it succeeded (failures — empty content or
zero generated tags — are not recorded and will be re-attempted); a unit
whose identifier is already in the set at dispatch time is reported skipped
with the whole state unchanged, before any service call (the outcome does
not depend on the service oracle). -/
theorem C2_progress_membership (svc svc2 : String → ServiceOutcome)
    (incSave : Bool) (fileName : String) (a : Article) (st : ProcState)
    (docs : Docs) :
    ((process_single_article svc incSave fileName a st docs).1.status
        = Status.success →
      (process_single_article svc incSave fileName a st docs).2.1.processed_articles
        = st.processed_articles ++ [articleId fileName a]) ∧
    ((process_single_article svc incSave fileName a st docs).1.status
        ≠ Status.success →
      (process_single_article svc incSave fileName a st docs).2.1.processed_articles
        = st.processed_articles) ∧
    (articleId fileName a ∈ st.processed_articles →
      (process_single_article svc incSave fileName a st docs).1.status
          = Status.skipped ∧
      process_single_article svc incSave fileName a st docs
        = process_single_article svc2 incSave fileName a st docs ∧
      (process_single_article svc incSave fileName a st docs).2.1 = st) ∧
    (articleId fileName a
        ∈ (process_single_article svc incSave fileName a st docs).2.1.processed_articles
      ↔ articleId fileName a ∈ st.processed_articles ∨
        (process_single_article svc incSave fileName a st docs).1.status
          = Status.success) := by
  by_cases h1 : articleId fileName a ∈ st.processed_articles
  · simp [process_single_article, h1]
  · by_cases h2 : a.content = ""
    · simp [process_single_article, h1, h2]
    · by_cases h3 : generate_tags a.content (svc a.content) = []
      · simp [process_single_article, h1, h2, h3]
      · simp [process_single_article, h1, h2, h3, mergeTags]

/-- Claim C2 witness: a successful unit's identifier is appended to the
processed set. -/
theorem C2_witness :
    (process_single_article svcWeather false "b.json" sampleArticle initState
      emptyDocs).1.status = Status.success ∧
    (process_single_article svcWeather false "b.json" sampleArticle initState
      emptyDocs).2.1.processed_articles = [articleId "b.json" sampleArticle] := by
  refine ⟨by decide, ?_⟩
  have h := (C2_progress_membership svcWeather svcWeather false "b.json"
    sampleArticle initState emptyDocs).1 (by decide)
  simpa [initState] using h

/-- Claim C3 (counterexample): the check-membership-then-insert sequence on
`processed_articles` (check at line 263, insert at line 297) holds no lock
at either step, so no common lock is held across the sequence — it is not
executed under mutual exclusion, contradicting the claim that every
multi-operation read-modify-write sequence on the two shared structures
is. -/
theorem C3_counterexample : ¬ underCommonLock checkThenInsertSteps := by decide

/-- Claim C3 (amended): the only mutual-exclusion section in
`process_single_article` is the tag-pool/counter merge together with the
incremental save, all under `tag_lock`; the `processed_articles` membership
check and insert hold no lock at all, and the `processed_files` check and
insert each hold `file_lock` but in two separate acquisitions with the
unlocked file body between them, so neither check-then-insert sequence
executes under a common lock. -/
theorem C3_lock_structure :
    underCommonLock [mergePoolStep, mergeCounterStep, incSaveStep] ∧
    articleCheckStep.locksHeld = [] ∧
    articleInsertStep.locksHeld = [] ∧
    fileCheckStep.locksHeld = [LockId.fileLock] ∧
    fileInsertStep.locksHeld = [LockId.fileLock] ∧
    ¬ underCommonLock fileSteps := by decide

/-- Claim C5 (counterexample): a `.json` file whose top-level value is a
single object with a perfectly resolvable `content` field is routed to
`read_json_articles`, which requires a top-level array — the file yields
zero units and fails with `no_valid_articles`, and no state changes. -/
theorem C5_counterexample :
    read_json_articles none objJsonFile.parsed = [] ∧
    (process_single_file svcWeather none false objJsonFile initState
      emptyDocs).1.status = Status.failed ∧
    (process_single_file svcWeather none false objJsonFile initState
      emptyDocs).1.reason = "no_valid_articles" ∧
    (process_single_file svcWeather none false objJsonFile initState
      emptyDocs).2.1 = initState := by decide

/-- Claim C5 (amended): the orchestrator routes every `.json` path to the
array reader, so a `.json` file whose top-level value is a single object
always yields zero units and fails with `no_valid_articles`, regardless of
its fields and without any service call; the single-object content-field
resolution (supplied field first, else the ordered fallback `content`,
`text`, `body`, `description`) lives in `read_article`, which the
orchestrator invokes only for non-`.json` paths. -/
theorem C5_single_object_json (svc svc2 : String → ServiceOutcome)
    (cf : Option String) (incSave : Bool) (f : SrcFile) (st : ProcState)
    (docs : Docs) (fs : List (String × JValue))
    (hext : hasJsonExt f.path = true)
    (hobj : f.parsed = some (JValue.obj fs))
    (hnew : f.path ∉ st.processed_files) :
    (process_single_file svc cf incSave f st docs).1.status = Status.failed ∧
    (process_single_file svc cf incSave f st docs).1.reason
      = "no_valid_articles" ∧
    (process_single_file svc cf incSave f st docs).2.1 = st ∧
    (process_single_file svc cf incSave f st docs).2.2.1 = docs ∧
    process_single_file svc cf incSave f st docs
      = process_single_file svc2 cf incSave f st docs := by
  have hra : read_json_articles cf f.parsed = [] := by rw [hobj]; rfl
  simp [process_single_file, hnew, hext, hra]

/-- Claim C5 witness: the amended behaviour at the concrete single-object
file. -/
theorem C5_witness :
    hasJsonExt objJsonFile.path = true ∧
    (process_single_file svcWeather none false objJsonFile initState
      emptyDocs).1.reason = "no_valid_articles" :=
  ⟨by decide,
   (C5_single_object_json svcWeather svcWeather none false objJsonFile
     initState emptyDocs [("content", JValue.str "今天天气很好")]
     (by decide) rfl (by decide)).2.1⟩

/-- Claim C6 (counterexample): when only the tag-pool document exists on
disk, `load_state` seeds the pool but leaves the counter empty, so the
distinct-tag set differs from the key set of the count mapping — the
invariant does not hold after such a load, contrary to the claim. -/
theorem C6_counterexample :
    ¬ storeInv (load_state
      { tagsDoc := some ["天气"], statsDoc := none, progressDoc := none }) := by
  decide

/-- Claim C6 (amended): the Aggregation Store invariant (distinct-tag set
equals the key set of the count mapping, every count at least 1) holds for
the freshly created empty store, is preserved by every merge, and holds
after `load_state` when neither the tag-pool nor the stats document exists;
it can fail after `load_state` when only one of the two exists. -/
theorem C6_store_invariant (st : ProcState) (ts : List String)
    (pr : Option (List String × List String)) :
    storeInv initState ∧
    (storeInv st → storeInv (mergeTags st ts)) ∧
    storeInv (load_state { tagsDoc := none, statsDoc := none, progressDoc := pr }) := by
  refine ⟨by decide, fun h => storeInv_merge st ts h, ?_⟩
  refine ⟨?_, ?_, ?_⟩ <;> intro x hx <;> simp [load_state, counterKeys] at hx

/-- Claim C6 witness: invariant preservation applied at a concrete state
and merge. -/
theorem C6_witness :
    storeInv oneTagState ∧ storeInv (mergeTags oneTagState ["运动", "天气"]) :=
  ⟨by decide,
   (C6_store_invariant oneTagState ["运动", "天气"] none).2.1 (by decide)⟩

/-- Claim C10: in incremental-save mode a successful unit writes exactly one
snapshot, inside the merge section: its tags/stats documents already show
the merged counts (every generated tag is a key of the persisted count
mapping), while its progress document still carries the pre-merge
processed-identifier sets — in particular it does not contain the unit's
own identifier, which is added to the in-memory set only afterwards. -/
theorem C10_incremental_save_order (svc : String → ServiceOutcome)
    (fileName : String) (a : Article) (st : ProcState) (docs : Docs)
    (h1 : articleId fileName a ∉ st.processed_articles)
    (h2 : a.content ≠ "")
    (h3 : generate_tags a.content (svc a.content) ≠ []) :
    (process_single_article svc true fileName a st docs).2.2.2 =
      [save_state (mergeTags st (generate_tags a.content (svc a.content)))
        (save_tags (mergeTags st (generate_tags a.content (svc a.content)))
          docs)] ∧
    (∀ d ∈ (process_single_article svc true fileName a st docs).2.2.2,
      d.progressDoc = some (st.processed_files, st.processed_articles)) ∧
    (∀ d ∈ (process_single_article svc true fileName a st docs).2.2.2,
      ∀ pr, d.progressDoc = some pr → articleId fileName a ∉ pr.2) ∧
    (∀ d ∈ (process_single_article svc true fileName a st docs).2.2.2,
      d.statsDoc = some (mkStats
        (mergeTags st (generate_tags a.content (svc a.content))))) ∧
    (∀ t ∈ generate_tags a.content (svc a.content),
      t ∈ counterKeys (mkStats
        (mergeTags st (generate_tags a.content (svc a.content)))).tag_counts) ∧
    (process_single_article svc true fileName a st docs).2.1.processed_articles
      = st.processed_articles ++ [articleId fileName a] := by
  refine ⟨?_, ?_, ?_, ?_, ?_, ?_⟩
  · simp [process_single_article, h1, h2, h3]
  · intro d hd
    simp [process_single_article, h1, h2, h3] at hd
    subst hd
    simp [save_state, save_tags, mergeTags]
  · intro d hd pr hpr
    simp [process_single_article, h1, h2, h3] at hd
    subst hd
    simp only [save_state, save_tags, mergeTags] at hpr
    obtain rfl := Option.some_injective _ hpr
    exact h1
  · intro d hd
    simp [process_single_article, h1, h2, h3] at hd
    subst hd
    simp [save_state, save_tags]
  · intro t ht
    simp only [mkStats, mergeTags]
    rw [mem_counterKeys_mostCommon]
    exact (mem_counterKeys_update _ _ _).mpr (Or.inr ht)
  · simp [process_single_article, h1, h2, h3, mergeTags]

/-- Claim C10 witness: the snapshot written while processing a concrete
successful article carries an empty processed-articles list, and the
identifier is added only to the in-memory state. -/
theorem C10_witness :
    (process_single_article svcWeather true "b.json" sampleArticle initState
      emptyDocs).2.1.processed_articles = [articleId "b.json" sampleArticle] := by
  have h := (C10_incremental_save_order svcWeather "b.json" sampleArticle
    initState emptyDocs (by decide) (by decide) (by decide)).2.2.2.2.2
  simpa [initState] using h

/-- Claim C1 (code bug): processing a one-text-file corpus twice with
persistence between the runs is not idempotent: the text branch of
`process_single_file` never adds the file path to `processed_files` (only
the JSON branch does, lines 341-342), so the second run's skip check at
lines 314-317 — whose very presence, together with the persisted progress
document, shows resume is intended for these files — never fires, the file
is reprocessed (reported success, not skipped) and every tag occurrence is
double-counted: total occurrences go from 2 after run one to 4 after run
two, while the progress document stays empty. -/
theorem C1_code_bug_eval :
    c1Run1.1.map FResult.status = [Status.success] ∧
    c1Run1.2.2.statsDoc.map Stats.total_occurrences = some 2 ∧
    c1Run1.2.2.progressDoc = some ([], []) ∧
    c1Run2.1.map FResult.status = [Status.success] ∧
    c1Run2.2.2.statsDoc.map Stats.total_occurrences = some 4 ∧
    c1Run2.2.2 ≠ c1Run1.2.2 := by decide

end PostTags
